import Mathlib

/-!
Verification of the UDPRIP virtual-topology router (`src/router.py`).

The router's shared mutable state (neighbor set, routing table, last-heard
map) is embedded as a pure `RouterState`; Python dictionaries become
association lists whose operations mimic Python dict semantics (first
match wins on lookup, in-place update on existing keys, append on fresh
keys).  Wall-clock times and the advertisement period are rationals.
Inbound datagrams are embedded as `RawMessage`, whose `Option` fields model
`dict.get` returning `None` for absent keys.  Handlers that print or send
datagrams return their outputs explicitly (`StepResult`).
-/

/-- Python dict lookup `d.get(k)`: first matching key wins. -/
def lookupD {α : Type} (m : List (String × α)) (k : String) : Option α :=
  match m with
  | [] => none
  | (k', v) :: rest => if k' = k then some v else lookupD rest k

/-- Python dict update `d[k] = v`: replace in place, or append a fresh key. -/
def insertD {α : Type} (m : List (String × α)) (k : String) (v : α) : List (String × α) :=
  match m with
  | [] => [(k, v)]
  | (k', v') :: rest => if k' = k then (k, v) :: rest else (k', v') :: insertD rest k v

/-- Python dict deletion `del d[k]`. -/
def eraseD {α : Type} (m : List (String × α)) (k : String) : List (String × α) :=
  m.filter (fun p => decide (p.1 ≠ k))

/-- The router's shared mutable state (`Router.__init__`, router.py:34-39). -/
structure RouterState where
  router_ip : String
  period : ℚ
  neighbors : List (String × Int)
  routing_table : List (String × Int × String)
  last_update_received : List (String × ℚ)
deriving DecidableEq, Repr

/-- Initial state: `self.routing_table[router_ip] = (0, router_ip)` (router.py:39). -/
def initState (router_ip : String) (period : ℚ) : RouterState :=
  { router_ip := router_ip
    period := period
    neighbors := []
    routing_table := [(router_ip, (0, router_ip))]
    last_update_received := [] }

/-- A decoded inbound JSON datagram; `Option` fields model `message.get(...)`
returning `None` when the key is absent. -/
structure RawMessage where
  type : Option String
  source : Option String
  destination : Option String
  payload : Option String
  routers : Option (List String)
  distances : Option (List (String × Int))
deriving DecidableEq, Repr

/-- Result of processing one inbound datagram: the new state, the datagrams
handed to the socket (next-hop address paired with the message), and the
lines printed to the operator's output. -/
structure StepResult where
  state : RouterState
  sent : List (String × RawMessage)
  printed : List String
deriving DecidableEq, Repr

/-- `_forward_message` (router.py:217-231): look the destination up in the
routing table and send to the next hop; drop silently when the destination
is absent (a missing `destination` field is `None`, never a table key). -/
def forward_message (s : RouterState) (m : RawMessage) : List (String × RawMessage) :=
  match m.destination with
  | none => []
  | some dest =>
    match lookupD s.routing_table dest with
    | none => []
    | some r => [(r.2, m)]

/-- The split-horizon snapshot built in `_send_update_message`
(router.py:235-241): every table entry whose next hop is not the target
neighbor, as a `dest ↦ distance` mapping. -/
def snapshot_for_neighbor (s : RouterState) (neighbor_ip : String) : List (String × Int) :=
  (s.routing_table.filter (fun p => decide (p.2.2 ≠ neighbor_ip))).map (fun p => (p.1, p.2.1))

/-- `_send_update_message` (router.py:233-253): the datagram built for one
neighbor, paired with the address it is sent to. -/
def send_update_message (s : RouterState) (neighbor_ip : String) : String × RawMessage :=
  (neighbor_ip,
    { type := some "update"
      source := some s.router_ip
      destination := some neighbor_ip
      payload := none
      routers := none
      distances := some (snapshot_for_neighbor s neighbor_ip) })

/-- `_send_updates_to_neighbors` (router.py:255-261): one update per neighbor. -/
def send_updates_to_neighbors (s : RouterState) : List (String × RawMessage) :=
  s.neighbors.map (fun p => send_update_message s p.1)

/-- The acceptance test of `_process_update_message` (router.py:168-170):
accept when the destination is absent, when the advertised route is strictly
better, or when the installed route already goes through the sender. -/
def route_accept (tbl : List (String × Int × String)) (source_ip dest_ip : String)
    (nd : Int) : Bool :=
  match lookupD tbl dest_ip with
  | none => true
  | some r => decide (nd < r.1) || decide (r.2 = source_ip)

/-- One iteration of the `for dest_ip, distance in distances.items()` loop of
`_process_update_message` (router.py:161-176), threading the table and the
`changed` flag.  `old ≠ some nd` models `old_distance != new_distance` with
the absent case read as the infinite sentinel. -/
def apply_route (self_ip : String) (sender_weight : Int) (source_ip : String)
    (acc : List (String × Int × String) × Bool) (adv : String × Int) :
    List (String × Int × String) × Bool :=
  if adv.1 = self_ip then acc
  else
    let nd := adv.2 + sender_weight
    if route_accept acc.1 source_ip adv.1 nd then
      let old := (lookupD acc.1 adv.1).map (fun r => r.1)
      (insertD acc.1 adv.1 (nd, source_ip), acc.2 || decide (old ≠ some nd))
    else acc

/-- `_process_update_message` (router.py:144-180), up to the final
re-advertisement: returns the new state and the `changed` flag.  A message
whose `source` is absent or not a current neighbor is dropped. -/
def process_update_message (s : RouterState) (now : ℚ) (m : RawMessage) :
    RouterState × Bool :=
  match m.source with
  | none => (s, false)
  | some source_ip =>
    match lookupD s.neighbors source_ip with
    | none => (s, false)
    | some sender_weight =>
      let res := (m.distances.getD []).foldl
        (apply_route s.router_ip sender_weight source_ip) (s.routing_table, false)
      ({ s with
          last_update_received := insertD s.last_update_received source_ip now
          routing_table := res.1 },
        res.2)

/-- `_process_data_message` (router.py:182-192): print the payload when we are
the destination (missing payload defaults to the empty string), otherwise
forward unchanged.  Returns (printed lines, sent datagrams). -/
def process_data_message (s : RouterState) (m : RawMessage) :
    List String × List (String × RawMessage) :=
  if m.destination = some s.router_ip then ([m.payload.getD ""], [])
  else ([], forward_message s m)

/-- JSON rendering of a string (for `json.dumps` of the trace reply). -/
def jsonString (s : String) : String := "\"" ++ s ++ "\""

/-- JSON rendering of an optional string field (`None` becomes `null`). -/
def jsonOpt (o : Option String) : String :=
  match o with
  | none => "null"
  | some s => jsonString s

/-- JSON rendering of the `routers` list. -/
def jsonList (l : List String) : String :=
  "[" ++ String.intercalate ", " (l.map jsonString) ++ "]"

/-- `json.dumps(message)` applied to an (amended) trace message
(router.py:210), with the four trace fields in wire order. -/
def traceJson (m : RawMessage) : String :=
  "\x7b\"type\": " ++ jsonOpt m.type ++ ", \"source\": " ++ jsonOpt m.source ++
    ", \"destination\": " ++ jsonOpt m.destination ++ ", \"routers\": " ++
    jsonList (m.routers.getD []) ++ "\x7d"

/-- `_process_trace_message` (router.py:194-215): append our address to
`routers`; if we are the destination, forward a data reply to the trace's
source carrying the serialized amended trace, else forward the amended trace. -/
def process_trace_message (s : RouterState) (m : RawMessage) :
    List (String × RawMessage) :=
  let amended := { m with routers := some (m.routers.getD [] ++ [s.router_ip]) }
  if m.destination = some s.router_ip then
    forward_message s
      { type := some "data"
        source := some s.router_ip
        destination := m.source
        payload := some (traceJson amended)
        routers := none
        distances := none }
  else
    forward_message s amended

/-- `_process_message` (router.py:133-142) together with the event-driven
re-advertisement at the end of `_process_update_message` (router.py:179-180):
dispatch on `type`; unknown or absent types are ignored. -/
def process_message (s : RouterState) (now : ℚ) (m : RawMessage) : StepResult :=
  match m.type with
  | some t =>
    if t = "update" then
      let r := process_update_message s now m
      { state := r.1
        sent := if r.2 then send_updates_to_neighbors r.1 else []
        printed := [] }
    else if t = "data" then
      let r := process_data_message s m
      { state := s, sent := r.2, printed := r.1 }
    else if t = "trace" then
      { state := s, sent := process_trace_message s m, printed := [] }
    else { state := s, sent := [], printed := [] }
  | none => { state := s, sent := [], printed := [] }

/-- `add_link` (router.py:74-86): upsert the neighbor's weight and install
`(weight, neighbor)` when the destination is absent or strictly worse. -/
def add_link (s : RouterState) (neighbor_ip : String) (weight : Int) : RouterState :=
  let tbl :=
    match lookupD s.routing_table neighbor_ip with
    | none => insertD s.routing_table neighbor_ip (weight, neighbor_ip)
    | some r =>
      if weight < r.1 then insertD s.routing_table neighbor_ip (weight, neighbor_ip)
      else s.routing_table
  { s with
      neighbors := insertD s.neighbors neighbor_ip weight
      routing_table := tbl }

/-- The route-purge loop shared by `remove_link` (router.py:98-104) and
`_check_neighbor_timeouts` (router.py:286-292): drop every entry whose next
hop is the given neighbor, except the entry for the local address. -/
def purge_routes_via (tbl : List (String × Int × String)) (self_ip neighbor_ip : String) :
    List (String × Int × String) :=
  tbl.filter (fun p => decide (¬ (p.2.2 = neighbor_ip ∧ p.1 ≠ self_ip)))

/-- `remove_link` (router.py:88-107): drop the neighbor, its last-heard
timestamp, and every route through it; a no-op for unknown neighbors. -/
def remove_link (s : RouterState) (neighbor_ip : String) : RouterState :=
  match lookupD s.neighbors neighbor_ip with
  | none => s
  | some _ =>
    { s with
        neighbors := eraseD s.neighbors neighbor_ip
        last_update_received := eraseD s.last_update_received neighbor_ip
        routing_table := purge_routes_via s.routing_table s.router_ip neighbor_ip }

/-- The per-neighbor body of the timeout loop (router.py:285-297): purge the
timed-out neighbor's routes and forget its last-heard timestamp. -/
def evict_neighbor (st : RouterState) (neighbor_ip : String) : RouterState :=
  { st with
      routing_table := purge_routes_via st.routing_table st.router_ip neighbor_ip
      last_update_received := eraseD st.last_update_received neighbor_ip }

/-- One tick of `_check_neighbor_timeouts` (router.py:274-297): collect every
neighbor whose last-heard timestamp is older than `4 * period`, then evict
each in turn.  The neighbor set itself is never touched. -/
def check_neighbor_timeouts (s : RouterState) (now : ℚ) : RouterState :=
  let timed_out := (s.last_update_received.filter
      (fun p => decide (4 * s.period < now - p.2))).map Prod.fst
  timed_out.foldl evict_neighbor s

/-- `send_trace` (router.py:109-118): originate a trace and forward it. -/
def send_trace (s : RouterState) (destination_ip : String) : List (String × RawMessage) :=
  forward_message s
    { type := some "trace"
      source := some s.router_ip
      destination := some destination_ip
      payload := none
      routers := some [s.router_ip]
      distances := none }

/-- One atomic state transition of the router: an inbound datagram, an
operator `add` (whose weight `_process_command`, router.py:316-318, has
validated to be strictly positive), an operator `del`, or a timeout tick.
Trace origination and periodic advertisement do not change the state. -/
inductive RouterStep : RouterState → RouterState → Prop
  | msg (s : RouterState) (now : ℚ) (m : RawMessage) :
      RouterStep s (process_message s now m).state
  | add (s : RouterState) (ip : String) (w : Int) (hw : 0 < w) :
      RouterStep s (add_link s ip w)
  | del (s : RouterState) (ip : String) :
      RouterStep s (remove_link s ip)
  | timeout (s : RouterState) (now : ℚ) :
      RouterStep s (check_neighbor_timeouts s now)

/-- States reachable from a freshly started router. -/
def Reachable (router_ip : String) (period : ℚ) (st : RouterState) : Prop :=
  Relation.ReflTransGen RouterStep (initState router_ip period) st

/-! ### Association-list lemmas -/

theorem lookupD_insertD_self {α : Type} (m : List (String × α)) (k : String) (v : α) :
    lookupD (insertD m k v) k = some v := by
  induction m with
  | nil => simp [insertD, lookupD]
  | cons p rest ih =>
    by_cases h : p.1 = k
    · simp [insertD, lookupD, h]
    · simp [insertD, lookupD, h, ih]

theorem lookupD_insertD_ne {α : Type} (m : List (String × α)) (k k' : String) (v : α)
    (h : k' ≠ k) : lookupD (insertD m k v) k' = lookupD m k' := by
  induction m with
  | nil => simp [insertD, lookupD, Ne.symm h]
  | cons p rest ih =>
    by_cases hp : p.1 = k
    · simp [insertD, lookupD, hp, Ne.symm h]
    · simp only [insertD, hp, if_false, lookupD]
      by_cases hk : p.1 = k'
      · simp [hk]
      · simp [hk, ih]

theorem insertD_of_lookupD_eq {α : Type} (m : List (String × α)) (k : String) (v : α)
    (h : lookupD m k = some v) : insertD m k v = m := by
  induction m with
  | nil => simp [lookupD] at h
  | cons p rest ih =>
    obtain ⟨k1, v1⟩ := p
    by_cases hp : k1 = k
    · subst hp
      simp only [lookupD, if_true, eq_self_iff_true, Option.some.injEq] at h
      simp [insertD, h]
    · simp only [lookupD, hp, if_false] at h
      simp [insertD, hp, ih h]

theorem lookupD_mem {α : Type} {m : List (String × α)} {k : String} {v : α}
    (h : lookupD m k = some v) : (k, v) ∈ m := by
  induction m with
  | nil => simp [lookupD] at h
  | cons p rest ih =>
    obtain ⟨k1, v1⟩ := p
    by_cases hp : k1 = k
    · subst hp
      simp only [lookupD, if_true, eq_self_iff_true, Option.some.injEq] at h
      simp [h]
    · simp only [lookupD, hp, if_false] at h
      exact List.mem_cons_of_mem _ (ih h)

theorem mem_lookupD_of_nodup {α : Type} {m : List (String × α)} {k : String} {v : α}
    (hnd : (m.map Prod.fst).Nodup) (h : (k, v) ∈ m) : lookupD m k = some v := by
  induction m with
  | nil => simp at h
  | cons p rest ih =>
    simp only [List.map_cons, List.nodup_cons] at hnd
    rcases List.mem_cons.mp h with h | h
    · subst h; simp [lookupD]
    · have hk : p.1 ≠ k := by
        intro he
        exact hnd.1 (he ▸ (List.mem_map.mpr ⟨(k, v), h, rfl⟩))
      simp [lookupD, hk, ih hnd.2 h]

theorem lookupD_eraseD_self {α : Type} (m : List (String × α)) (k : String) :
    lookupD (eraseD m k) k = none := by
  induction m with
  | nil => simp [eraseD, lookupD]
  | cons p rest ih =>
    by_cases hp : p.1 = k
    · simpa [eraseD, List.filter_cons, hp] using ih
    · simpa [eraseD, List.filter_cons, lookupD, hp] using ih

theorem lookupD_eraseD_ne {α : Type} (m : List (String × α)) (k k' : String)
    (h : k' ≠ k) : lookupD (eraseD m k) k' = lookupD m k' := by
  induction m with
  | nil => simp [eraseD, lookupD]
  | cons p rest ih =>
    obtain ⟨k1, v1⟩ := p
    by_cases hp : k1 = k
    · subst hp
      have hne : k1 ≠ k' := fun he => h he.symm
      simpa [eraseD, List.filter_cons, lookupD, hne] using ih
    · by_cases hk : k1 = k'
      · subst hk
        simp [eraseD, List.filter_cons, lookupD, hp]
      · simpa [eraseD, List.filter_cons, lookupD, hp, hk] using ih

theorem lookupD_filter {α : Type} (f : String × α → Bool) (m : List (String × α))
    (k : String) (h : ∀ v, f (k, v) = true) :
    lookupD (m.filter f) k = lookupD m k := by
  induction m with
  | nil => simp [lookupD]
  | cons p rest ih =>
    by_cases hp : p.1 = k
    · have hf : f p = true := by
        have hv := h p.2
        rwa [← hp] at hv
      simp [List.filter_cons, hf, lookupD, hp, ih]
    · cases hf : f p with
      | true => simp [List.filter_cons, hf, lookupD, hp, ih]
      | false => simpa [List.filter_cons, hf, lookupD, hp] using ih

theorem lookupD_none_eraseD {α : Type} (m : List (String × α)) (k k' : String)
    (h : lookupD m k = none) : lookupD (eraseD m k') k = none := by
  by_cases he : k = k'
  · subst he; exact lookupD_eraseD_self m k
  · rwa [lookupD_eraseD_ne m k' k he]

/-! ### Lemmas about the update-processing loop -/

theorem apply_route_lookup_ne (self_ip : String) (w : Int) (src : String)
    (acc : List (String × Int × String) × Bool) (adv : String × Int) (k : String)
    (h : adv.1 ≠ k) :
    lookupD (apply_route self_ip w src acc adv).1 k = lookupD acc.1 k := by
  by_cases h1 : adv.1 = self_ip
  · simp [apply_route, h1]
  · by_cases h2 : route_accept acc.1 src adv.1 (adv.2 + w) = true
    · simp [apply_route, h1, h2, lookupD_insertD_ne _ _ _ _ (Ne.symm h)]
    · simp [apply_route, h1, h2]

theorem apply_route_lookup_self (self_ip : String) (w : Int) (src : String)
    (acc : List (String × Int × String) × Bool) (adv : String × Int) :
    lookupD (apply_route self_ip w src acc adv).1 self_ip = lookupD acc.1 self_ip := by
  by_cases h1 : adv.1 = self_ip
  · simp [apply_route, h1]
  · exact apply_route_lookup_ne _ _ _ _ _ _ h1

theorem foldl_apply_route_lookup_not_mem (self_ip : String) (w : Int) (src : String)
    (L : List (String × Int)) (acc : List (String × Int × String) × Bool) (k : String)
    (h : k ∉ L.map Prod.fst) :
    lookupD (L.foldl (apply_route self_ip w src) acc).1 k = lookupD acc.1 k := by
  induction L generalizing acc with
  | nil => rfl
  | cons p rest ih =>
    simp only [List.map_cons, List.mem_cons, not_or] at h
    rw [List.foldl_cons, ih _ h.2, apply_route_lookup_ne _ _ _ _ _ _ (fun he => h.1 he.symm)]

theorem foldl_apply_route_lookup_self (self_ip : String) (w : Int) (src : String)
    (L : List (String × Int)) (acc : List (String × Int × String) × Bool) :
    lookupD (L.foldl (apply_route self_ip w src) acc).1 self_ip = lookupD acc.1 self_ip := by
  induction L generalizing acc with
  | nil => rfl
  | cons p rest ih => rw [List.foldl_cons, ih, apply_route_lookup_self]

theorem route_accept_congr (t1 t2 : List (String × Int × String)) (src dest : String)
    (nd : Int) (h : lookupD t1 dest = lookupD t2 dest) :
    route_accept t1 src dest nd = route_accept t2 src dest nd := by
  unfold route_accept
  rw [h]

theorem foldl_apply_route_lookup_mem (self_ip : String) (w : Int) (src : String)
    (L : List (String × Int)) (dest : String) (d : Int) (hself : dest ≠ self_ip) :
    ∀ (tbl : List (String × Int × String)) (c : Bool),
      (L.map Prod.fst).Nodup → (dest, d) ∈ L →
      lookupD (L.foldl (apply_route self_ip w src) (tbl, c)).1 dest =
        if route_accept tbl src dest (d + w) then some (d + w, src)
        else lookupD tbl dest := by
  induction L with
  | nil =>
    intro tbl c _ hmem
    simp at hmem
  | cons p rest ih =>
    intro tbl c hnd hmem
    simp only [List.map_cons, List.nodup_cons] at hnd
    rw [List.foldl_cons]
    rcases List.mem_cons.mp hmem with h | h
    · subst h
      rw [foldl_apply_route_lookup_not_mem _ _ _ _ _ _ hnd.1]
      by_cases hacc : route_accept tbl src dest (d + w) = true
      · simp [apply_route, hself, hacc, lookupD_insertD_self]
      · simp [apply_route, hself, hacc]
    · have hne : p.1 ≠ dest := by
        intro he
        exact hnd.1 (he ▸ List.mem_map.mpr ⟨(dest, d), h, rfl⟩)
      have hl : lookupD (apply_route self_ip w src (tbl, c) p).1 dest = lookupD tbl dest :=
        apply_route_lookup_ne _ _ _ _ _ _ hne
      have hi := ih (apply_route self_ip w src (tbl, c) p).1
        (apply_route self_ip w src (tbl, c) p).2 hnd.2 h
      simp only [Prod.mk.eta] at hi
      rw [hi, route_accept_congr _ _ src dest (d + w) hl, hl]

theorem foldl_apply_route_stable (self_ip : String) (w : Int) (src : String)
    (L : List (String × Int)) (tbl : List (String × Int × String)) :
    (∀ p ∈ L, p.1 ≠ self_ip → route_accept tbl src p.1 (p.2 + w) = true →
      lookupD tbl p.1 = some (p.2 + w, src)) →
    ∀ c, (L.foldl (apply_route self_ip w src) (tbl, c)).1 = tbl := by
  induction L with
  | nil =>
    intro _ c
    rfl
  | cons p rest ih =>
    intro h c
    rw [List.foldl_cons]
    have hstep : (apply_route self_ip w src (tbl, c) p).1 = tbl := by
      by_cases h1 : p.1 = self_ip
      · simp [apply_route, h1]
      · by_cases h2 : route_accept tbl src p.1 (p.2 + w) = true
        · have hv := h p (List.mem_cons_self p rest) h1 h2
          simp [apply_route, h1, h2, insertD_of_lookupD_eq _ _ _ hv]
        · simp [apply_route, h1, h2]
    have hx := (Prod.mk.eta (p := apply_route self_ip w src (tbl, c) p)).symm
    rw [hstep] at hx
    rw [hx]
    exact ih (fun q hq => h q (List.mem_cons_of_mem _ hq)) _

/-! ### Field-preservation lemmas -/

theorem evict_neighbor_router_ip (st : RouterState) (n : String) :
    (evict_neighbor st n).router_ip = st.router_ip := rfl

theorem evict_neighbor_neighbors (st : RouterState) (n : String) :
    (evict_neighbor st n).neighbors = st.neighbors := rfl

theorem evict_neighbor_table (st : RouterState) (n : String) :
    (evict_neighbor st n).routing_table = purge_routes_via st.routing_table st.router_ip n := rfl

theorem evict_neighbor_last (st : RouterState) (n : String) :
    (evict_neighbor st n).last_update_received = eraseD st.last_update_received n := rfl

theorem lookupD_purge_self (tbl : List (String × Int × String)) (self_ip n : String) :
    lookupD (purge_routes_via tbl self_ip n) self_ip = lookupD tbl self_ip :=
  lookupD_filter _ _ _ (fun v => by simp)

theorem mem_purge (tbl : List (String × Int × String)) (self_ip n : String)
    (e : String × Int × String) :
    e ∈ purge_routes_via tbl self_ip n ↔ e ∈ tbl ∧ (e.2.2 = n → e.1 = self_ip) := by
  simp only [purge_routes_via, List.mem_filter, decide_eq_true_eq]
  constructor
  · rintro ⟨h1, h2⟩
    exact ⟨h1, fun hh => by_contra (fun hc => h2 ⟨hh, hc⟩)⟩
  · rintro ⟨h1, h2⟩
    exact ⟨h1, fun hc => hc.2 (h2 hc.1)⟩

theorem process_update_state_fields (s : RouterState) (now : ℚ) (m : RawMessage) :
    (process_update_message s now m).1.router_ip = s.router_ip ∧
    (process_update_message s now m).1.period = s.period ∧
    (process_update_message s now m).1.neighbors = s.neighbors := by
  cases hsrc : m.source with
  | none => simp [process_update_message, hsrc]
  | some src =>
    cases hw : lookupD s.neighbors src with
    | none => simp [process_update_message, hsrc, hw]
    | some w => simp [process_update_message, hsrc, hw]

theorem process_update_self_lookup (s : RouterState) (now : ℚ) (m : RawMessage) :
    lookupD (process_update_message s now m).1.routing_table s.router_ip =
      lookupD s.routing_table s.router_ip := by
  cases hsrc : m.source with
  | none => simp [process_update_message, hsrc]
  | some src =>
    cases hw : lookupD s.neighbors src with
    | none => simp [process_update_message, hsrc, hw]
    | some w =>
      simp only [process_update_message, hsrc, hw]
      exact foldl_apply_route_lookup_self _ _ _ _ _

theorem process_message_state_cases (s : RouterState) (now : ℚ) (m : RawMessage) :
    (process_message s now m).state = s ∨
    (process_message s now m).state = (process_update_message s now m).1 := by
  cases htype : m.type with
  | none => exact Or.inl (by simp [process_message, htype])
  | some t =>
    by_cases h1 : t = "update"
    · refine Or.inr ?_
      simp [process_message, htype, h1]
    · refine Or.inl ?_
      by_cases h2 : t = "data" <;> by_cases h3 : t = "trace" <;>
        simp [process_message, htype, h1, h2, h3]

theorem foldl_evict_router_ip (L : List String) :
    ∀ st : RouterState, (L.foldl evict_neighbor st).router_ip = st.router_ip := by
  induction L with
  | nil => intro st; rfl
  | cons n rest ih =>
    intro st
    rw [List.foldl_cons, ih, evict_neighbor_router_ip]

theorem foldl_evict_neighbors (L : List String) :
    ∀ st : RouterState, (L.foldl evict_neighbor st).neighbors = st.neighbors := by
  induction L with
  | nil => intro st; rfl
  | cons n rest ih =>
    intro st
    rw [List.foldl_cons, ih, evict_neighbor_neighbors]

theorem foldl_evict_period (L : List String) :
    ∀ st : RouterState, (L.foldl evict_neighbor st).period = st.period := by
  induction L with
  | nil => intro st; rfl
  | cons n rest ih =>
    intro st
    rw [List.foldl_cons, ih]
    rfl

theorem foldl_evict_self_lookup (L : List String) :
    ∀ st : RouterState,
      lookupD (L.foldl evict_neighbor st).routing_table st.router_ip =
        lookupD st.routing_table st.router_ip := by
  induction L with
  | nil => intro st; rfl
  | cons n rest ih =>
    intro st
    rw [List.foldl_cons]
    have hi := ih (evict_neighbor st n)
    rw [evict_neighbor_router_ip] at hi
    rw [hi, evict_neighbor_table, lookupD_purge_self]

/-! ### The self-entry invariant -/

theorem add_link_router_ip (s : RouterState) (ip : String) (w : Int) :
    (add_link s ip w).router_ip = s.router_ip := rfl

theorem remove_link_router_ip (s : RouterState) (ip : String) :
    (remove_link s ip).router_ip = s.router_ip := by
  cases hl : lookupD s.neighbors ip with
  | none => simp [remove_link, hl]
  | some w => simp [remove_link, hl]

theorem check_timeouts_router_ip (s : RouterState) (now : ℚ) :
    (check_neighbor_timeouts s now).router_ip = s.router_ip :=
  foldl_evict_router_ip _ s

theorem add_link_self_lookup (s : RouterState) (ip : String) (w : Int) (hw : 0 < w)
    (hinv : lookupD s.routing_table s.router_ip = some (0, s.router_ip)) :
    lookupD (add_link s ip w).routing_table s.router_ip = some (0, s.router_ip) := by
  by_cases hip : ip = s.router_ip
  · subst hip
    have hneg : ¬ w < (0 : Int) := by omega
    simp [add_link, hinv, hneg]
  · have hne : s.router_ip ≠ ip := fun he => hip he.symm
    cases hl : lookupD s.routing_table ip with
    | none => simp [add_link, hl, lookupD_insertD_ne _ _ _ _ hne, hinv]
    | some r =>
      by_cases hlt : w < r.1
      · simp [add_link, hl, hlt, lookupD_insertD_ne _ _ _ _ hne, hinv]
      · simp [add_link, hl, hlt, hinv]

theorem remove_link_self_lookup (s : RouterState) (ip : String) :
    lookupD (remove_link s ip).routing_table s.router_ip =
      lookupD s.routing_table s.router_ip := by
  cases hl : lookupD s.neighbors ip with
  | none => simp [remove_link, hl]
  | some w => simp [remove_link, hl, lookupD_purge_self]

theorem check_timeouts_self_lookup (s : RouterState) (now : ℚ) :
    lookupD (check_neighbor_timeouts s now).routing_table s.router_ip =
      lookupD s.routing_table s.router_ip :=
  foldl_evict_self_lookup _ s

theorem step_router_ip {s s' : RouterState} (h : RouterStep s s') :
    s'.router_ip = s.router_ip := by
  cases h with
  | msg now m =>
    rcases process_message_state_cases s now m with he | he
    · rw [he]
    · rw [he]
      exact (process_update_state_fields s now m).1
  | add ip w hw => rfl
  | del ip => exact remove_link_router_ip s ip
  | timeout now => exact check_timeouts_router_ip s now

theorem step_preserves_self_entry {s s' : RouterState} (h : RouterStep s s')
    (hinv : lookupD s.routing_table s.router_ip = some (0, s.router_ip)) :
    lookupD s'.routing_table s'.router_ip = some (0, s'.router_ip) := by
  rw [step_router_ip h]
  cases h with
  | msg now m =>
    rcases process_message_state_cases s now m with he | he
    · rw [he]
      exact hinv
    · rw [he, process_update_self_lookup]
      exact hinv
  | add ip w hw => exact add_link_self_lookup s ip w hw hinv
  | del ip =>
    rw [remove_link_self_lookup]
    exact hinv
  | timeout now =>
    rw [check_timeouts_self_lookup]
    exact hinv

/-- Claim C2: in every reachable state the routing table maps the local
address to distance 0 with next-hop the local address; no operation
(advertisement intake, `add` with positive weight, `del`, neighbor timeout)
removes or overwrites this entry, and the local address itself never
changes. -/
theorem claim_c2_self_entry (router_ip : String) (period : ℚ) (st : RouterState)
    (h : Reachable router_ip period st) :
    st.router_ip = router_ip ∧
    lookupD st.routing_table st.router_ip = some (0, st.router_ip) := by
  unfold Reachable at h
  induction h with
  | refl => exact ⟨rfl, by simp [initState, lookupD]⟩
  | tail hab hbc ih =>
    exact ⟨(step_router_ip hbc).trans ih.1, step_preserves_self_entry hbc ih.2⟩

/-- Witness for C2 at a concrete reachable state: one `add` step from a fresh
router. -/
theorem claim_c2_self_entry_witness :
    (add_link (initState "127.0.1.1" 1) "127.0.1.2" 5).router_ip = "127.0.1.1" ∧
    lookupD (add_link (initState "127.0.1.1" 1) "127.0.1.2" 5).routing_table
        (add_link (initState "127.0.1.1" 1) "127.0.1.2" 5).router_ip =
      some (0, (add_link (initState "127.0.1.1" 1) "127.0.1.2" 5).router_ip) :=
  claim_c2_self_entry "127.0.1.1" 1 _
    (Relation.ReflTransGen.single
      (RouterStep.add (initState "127.0.1.1" 1) "127.0.1.2" 5 (by decide)))

/-! ### Unfolding lemmas for update intake -/

theorem process_update_routing_table (s : RouterState) (now : ℚ) (m : RawMessage)
    (src : String) (w : Int) (hsrc : m.source = some src)
    (hw : lookupD s.neighbors src = some w) :
    (process_update_message s now m).1.routing_table =
      ((m.distances.getD []).foldl (apply_route s.router_ip w src)
        (s.routing_table, false)).1 := by
  simp [process_update_message, hsrc, hw]

theorem process_update_last_heard (s : RouterState) (now : ℚ) (m : RawMessage)
    (src : String) (w : Int) (hsrc : m.source = some src)
    (hw : lookupD s.neighbors src = some w) :
    (process_update_message s now m).1.last_update_received =
      insertD s.last_update_received src now := by
  simp [process_update_message, hsrc, hw]

theorem process_update_drop_none (s : RouterState) (now : ℚ) (m : RawMessage)
    (hsrc : m.source = none) : process_update_message s now m = (s, false) := by
  simp [process_update_message, hsrc]

theorem process_update_drop_nonneighbor (s : RouterState) (now : ℚ) (m : RawMessage)
    (src : String) (hsrc : m.source = some src)
    (hw : lookupD s.neighbors src = none) :
    process_update_message s now m = (s, false) := by
  simp [process_update_message, hsrc, hw]

/-- Claim C1: for a processed update from current neighbor `src` with link
weight `w`, and for each advertised pair `(dest, d)` with `dest` not the
local address, with `d' = d + w`: if no route to `dest` is installed, or the
installed distance exceeds `d'`, or the installed next-hop is `src`, the
entry for `dest` becomes `(d', src)`; otherwise it is unchanged. -/
theorem claim_c1_route_selection (s : RouterState) (now : ℚ) (m : RawMessage)
    (src : String) (w : Int) (hsrc : m.source = some src)
    (hw : lookupD s.neighbors src = some w)
    (hnd : ((m.distances.getD []).map Prod.fst).Nodup)
    (dest : String) (d : Int) (hmem : (dest, d) ∈ m.distances.getD [])
    (hself : dest ≠ s.router_ip) :
    (lookupD s.routing_table dest = none →
      lookupD (process_update_message s now m).1.routing_table dest =
        some (d + w, src)) ∧
    (∀ cur_d cur_hop, lookupD s.routing_table dest = some (cur_d, cur_hop) →
      (d + w < cur_d ∨ cur_hop = src) →
      lookupD (process_update_message s now m).1.routing_table dest =
        some (d + w, src)) ∧
    (∀ cur_d cur_hop, lookupD s.routing_table dest = some (cur_d, cur_hop) →
      ¬ d + w < cur_d → cur_hop ≠ src →
      lookupD (process_update_message s now m).1.routing_table dest =
        some (cur_d, cur_hop)) := by
  have hmain := foldl_apply_route_lookup_mem s.router_ip w src (m.distances.getD [])
    dest d hself s.routing_table false hnd hmem
  rw [process_update_routing_table s now m src w hsrc hw]
  refine ⟨?_, ?_, ?_⟩
  · intro hnone
    rw [hmain]
    simp [route_accept, hnone]
  · intro cur_d cur_hop hcur hor
    have hacc : route_accept s.routing_table src dest (d + w) = true := by
      rcases hor with h | h <;> simp [route_accept, hcur, h]
    rw [hmain, hacc]
    simp
  · intro cur_d cur_hop hcur hlt hhop
    have hacc : route_accept s.routing_table src dest (d + w) = false := by
      simp [route_accept, hcur, hlt, hhop]
    rw [hmain, hacc]
    simp [hcur]

/-- Witness for C1: neighbor `B` with weight 1 advertises `C` at distance 4
to router `A`; since `A` has no route to `C`, the entry becomes `(5, B)`. -/
theorem claim_c1_route_selection_witness :
    lookupD (process_update_message
      { router_ip := "A", period := 1, neighbors := [("B", 1)],
        routing_table := [("A", (0, "A"))], last_update_received := [] } 7
      { type := some "update", source := some "B", destination := some "A",
        payload := none, routers := none,
        distances := some [("C", 4)] }).1.routing_table "C" = some (4 + 1, "B") :=
  (claim_c1_route_selection _ 7 _ "B" 1 rfl (by decide) (by decide) "C" 4 (by decide)
    (by decide)).1 (by decide)

/-- Claim C4: processing the same update from a current neighbor twice in
succession, with no intervening state change, leaves the routing table equal
to the table after processing it once. -/
theorem claim_c4_idempotent (s : RouterState) (now1 now2 : ℚ) (m : RawMessage)
    (src : String) (w : Int) (hsrc : m.source = some src)
    (hw : lookupD s.neighbors src = some w)
    (hnd : ((m.distances.getD []).map Prod.fst).Nodup) :
    (process_update_message (process_update_message s now1 m).1 now2 m).1.routing_table =
      (process_update_message s now1 m).1.routing_table := by
  have hnbrs : (process_update_message s now1 m).1.neighbors = s.neighbors :=
    (process_update_state_fields s now1 m).2.2
  have hrip : (process_update_message s now1 m).1.router_ip = s.router_ip :=
    (process_update_state_fields s now1 m).1
  have hw1 : lookupD (process_update_message s now1 m).1.neighbors src = some w := by
    rw [hnbrs]
    exact hw
  rw [process_update_routing_table _ now2 m src w hsrc hw1, hrip]
  apply foldl_apply_route_stable
  intro p hp hpself hacc
  have hmemp : (p.1, p.2) ∈ m.distances.getD [] := by simpa using hp
  have h1 : lookupD (process_update_message s now1 m).1.routing_table p.1 =
      if route_accept s.routing_table src p.1 (p.2 + w) then some (p.2 + w, src)
      else lookupD s.routing_table p.1 := by
    rw [process_update_routing_table s now1 m src w hsrc hw]
    exact foldl_apply_route_lookup_mem s.router_ip w src _ p.1 p.2 hpself _ false hnd hmemp
  by_cases hacc0 : route_accept s.routing_table src p.1 (p.2 + w) = true
  · rw [h1, hacc0]
    simp
  · exfalso
    have heq : lookupD (process_update_message s now1 m).1.routing_table p.1 =
        lookupD s.routing_table p.1 := by
      rw [h1]
      simp [hacc0]
    have hra := route_accept_congr _ _ src p.1 (p.2 + w) heq
    rw [hra] at hacc
    exact hacc0 hacc

/-- Witness for C4: the update of the C1 witness, delivered twice. -/
theorem claim_c4_idempotent_witness :
    (process_update_message (process_update_message
      { router_ip := "A", period := 1, neighbors := [("B", 1)],
        routing_table := [("A", (0, "A"))], last_update_received := [] } 7
      { type := some "update", source := some "B", destination := some "A",
        payload := none, routers := none, distances := some [("C", 4)] }).1 9
      { type := some "update", source := some "B", destination := some "A",
        payload := none, routers := none, distances := some [("C", 4)] }).1.routing_table =
    (process_update_message
      { router_ip := "A", period := 1, neighbors := [("B", 1)],
        routing_table := [("A", (0, "A"))], last_update_received := [] } 7
      { type := some "update", source := some "B", destination := some "A",
        payload := none, routers := none, distances := some [("C", 4)] }).1.routing_table :=
  claim_c4_idempotent _ 7 9 _ "B" 1 rfl (by decide) (by decide)

/-- Claim C7: an update whose source is not a current neighbor leaves the
whole state unchanged and sends no datagram (and prints nothing); an update
whose source is a current neighbor sets that neighbor's last-heard timestamp
to the processing time. -/
theorem claim_c7_nonneighbor_drop (s : RouterState) (now : ℚ) (m : RawMessage)
    (src : String) (htype : m.type = some "update") (hsrc : m.source = some src) :
    (lookupD s.neighbors src = none →
      (process_message s now m).state = s ∧
      (process_message s now m).sent = [] ∧
      (process_message s now m).printed = []) ∧
    (∀ w, lookupD s.neighbors src = some w →
      lookupD (process_message s now m).state.last_update_received src = some now) := by
  constructor
  · intro hnone
    have hdrop := process_update_drop_nonneighbor s now m src hsrc hnone
    simp [process_message, htype, hdrop]
  · intro w hw
    have hstate : (process_message s now m).state = (process_update_message s now m).1 := by
      simp [process_message, htype]
    rw [hstate, process_update_last_heard s now m src w hsrc hw]
    exact lookupD_insertD_self _ _ _

/-- Witness for C7: an update from the unknown source `X` is dropped by a
router whose only neighbor is `B`. -/
theorem claim_c7_nonneighbor_drop_witness :
    (process_message
      { router_ip := "A", period := 1, neighbors := [("B", 1)],
        routing_table := [("A", (0, "A"))], last_update_received := [] } 3
      { type := some "update", source := some "X", destination := some "A",
        payload := none, routers := none,
        distances := some [("C", 4)] }).state =
      { router_ip := "A", period := 1, neighbors := [("B", 1)],
        routing_table := [("A", (0, "A"))], last_update_received := [] } ∧
    (process_message
      { router_ip := "A", period := 1, neighbors := [("B", 1)],
        routing_table := [("A", (0, "A"))], last_update_received := [] } 3
      { type := some "update", source := some "X", destination := some "A",
        payload := none, routers := none,
        distances := some [("C", 4)] }).sent = [] ∧
    (process_message
      { router_ip := "A", period := 1, neighbors := [("B", 1)],
        routing_table := [("A", (0, "A"))], last_update_received := [] } 3
      { type := some "update", source := some "X", destination := some "A",
        payload := none, routers := none,
        distances := some [("C", 4)] }).printed = [] :=
  (claim_c7_nonneighbor_drop _ 3 _ "X" rfl rfl).1 (by decide)

/-! ### Split horizon -/

theorem mem_snapshot (s : RouterState) (n dest : String) (dist : Int) :
    (dest, dist) ∈ snapshot_for_neighbor s n ↔
      ∃ hop, (dest, (dist, hop)) ∈ s.routing_table ∧ hop ≠ n := by
  simp only [snapshot_for_neighbor, List.mem_map, List.mem_filter, decide_eq_true_eq]
  constructor
  · rintro ⟨p, ⟨hmem, hhop⟩, hp⟩
    obtain ⟨dest0, d0, hop0⟩ := p
    simp only [Prod.mk.injEq] at hp
    exact ⟨hop0, by rw [← hp.1, ← hp.2]; exact hmem, hhop⟩
  · rintro ⟨hop, hmem, hhop⟩
    exact ⟨(dest, (dist, hop)), ⟨hmem, hhop⟩, rfl⟩

/-- Claim C3: the update datagram built for neighbor `n` carries exactly the
routing-table entries `(dest, distance)` whose installed next-hop is not `n`;
in particular the self-entry (next-hop self, which is no neighbor since the
address bound by a router is its own) is included, and no entry whose
next-hop is `n` is included. -/
theorem claim_c3_split_horizon (s : RouterState) (n : String)
    (hnd : (s.routing_table.map Prod.fst).Nodup) :
    ((send_update_message s n).2.distances = some (snapshot_for_neighbor s n)) ∧
    (∀ dest dist, (dest, dist) ∈ snapshot_for_neighbor s n ↔
      ∃ hop, lookupD s.routing_table dest = some (dist, hop) ∧ hop ≠ n) ∧
    (n ≠ s.router_ip →
      lookupD s.routing_table s.router_ip = some (0, s.router_ip) →
      (s.router_ip, (0 : Int)) ∈ snapshot_for_neighbor s n) := by
  have hchar : ∀ dest dist, (dest, dist) ∈ snapshot_for_neighbor s n ↔
      ∃ hop, lookupD s.routing_table dest = some (dist, hop) ∧ hop ≠ n := by
    intro dest dist
    rw [mem_snapshot]
    constructor
    · rintro ⟨hop, hmem, hhop⟩
      exact ⟨hop, mem_lookupD_of_nodup hnd hmem, hhop⟩
    · rintro ⟨hop, hl, hhop⟩
      exact ⟨hop, lookupD_mem hl, hhop⟩
  refine ⟨rfl, hchar, ?_⟩
  intro hne hself
  exact (hchar s.router_ip 0).mpr ⟨s.router_ip, hself, fun he => hne he.symm⟩

/-- Witness for C3: a router `A` with a route to `C` via `B` and a direct
link entry for `B`; the snapshot for `B` keeps the self-entry and omits both
routes through `B`. -/
theorem claim_c3_split_horizon_witness :
    ((send_update_message
      { router_ip := "A", period := 1, neighbors := [("B", 1)],
        routing_table := [("A", (0, "A")), ("B", (1, "B")), ("C", (5, "B"))],
        last_update_received := [] } "B").2.distances =
      some (snapshot_for_neighbor
        { router_ip := "A", period := 1, neighbors := [("B", 1)],
          routing_table := [("A", (0, "A")), ("B", (1, "B")), ("C", (5, "B"))],
          last_update_received := [] } "B")) ∧
    (("A", (0 : Int)) ∈ snapshot_for_neighbor
      { router_ip := "A", period := 1, neighbors := [("B", 1)],
        routing_table := [("A", (0, "A")), ("B", (1, "B")), ("C", (5, "B"))],
        last_update_received := [] } "B") :=
  ⟨(claim_c3_split_horizon _ "B" (by decide)).1,
    (claim_c3_split_horizon _ "B" (by decide)).2.2 (by decide) (by decide)⟩

/-! ### Neighbor timeouts -/

theorem mem_foldl_evict (L : List String) (e : String × Int × String) :
    ∀ st : RouterState,
      e ∈ (L.foldl evict_neighbor st).routing_table ↔
        e ∈ st.routing_table ∧ ∀ n ∈ L, e.2.2 = n → e.1 = st.router_ip := by
  induction L with
  | nil =>
    intro st
    simp
  | cons n rest ih =>
    intro st
    rw [List.foldl_cons, ih (evict_neighbor st n)]
    simp only [evict_neighbor_table, evict_neighbor_router_ip, mem_purge,
      List.forall_mem_cons]
    tauto

theorem foldl_evict_last_none (L : List String) (k : String) :
    ∀ st : RouterState, lookupD st.last_update_received k = none →
      lookupD (L.foldl evict_neighbor st).last_update_received k = none := by
  induction L with
  | nil =>
    intro st h
    exact h
  | cons n rest ih =>
    intro st h
    rw [List.foldl_cons]
    apply ih
    rw [evict_neighbor_last]
    exact lookupD_none_eraseD _ _ _ h

theorem foldl_evict_last_mem_none (L : List String) (k : String) :
    ∀ st : RouterState, k ∈ L →
      lookupD (L.foldl evict_neighbor st).last_update_received k = none := by
  induction L with
  | nil =>
    intro st h
    simp at h
  | cons n rest ih =>
    intro st h
    rw [List.foldl_cons]
    rcases List.mem_cons.mp h with he | he
    · subst he
      apply foldl_evict_last_none
      rw [evict_neighbor_last]
      exact lookupD_eraseD_self _ _
    · exact ih _ he

/-- Claim C5: when neighbor `n` has a last-heard timestamp `t` and
`now - t > 4 * period`, the timeout tick removes every route via `n` except
the self-entry and forgets `n`'s timestamp, keeps the neighbor set (so `n`
and its weight survive), keeps every route whose next-hop has no stale
timestamp (in particular next-hops with no timestamp at all), and keeps the
self-entry's value. -/
theorem claim_c5_neighbor_timeout (s : RouterState) (now : ℚ) (n : String) (t : ℚ)
    (hnd : (s.last_update_received.map Prod.fst).Nodup)
    (hlast : lookupD s.last_update_received n = some t)
    (hstale : 4 * s.period < now - t) :
    (∀ e ∈ (check_neighbor_timeouts s now).routing_table,
      e.2.2 = n → e.1 = s.router_ip) ∧
    lookupD (check_neighbor_timeouts s now).last_update_received n = none ∧
    (check_neighbor_timeouts s now).neighbors = s.neighbors ∧
    (∀ e ∈ s.routing_table,
      (∀ t', lookupD s.last_update_received e.2.2 = some t' →
        ¬ 4 * s.period < now - t') →
      e ∈ (check_neighbor_timeouts s now).routing_table) ∧
    lookupD (check_neighbor_timeouts s now).routing_table s.router_ip =
      lookupD s.routing_table s.router_ip := by
  have hnT : n ∈ (s.last_update_received.filter
      (fun p => decide (4 * s.period < now - p.2))).map Prod.fst :=
    List.mem_map.mpr ⟨(n, t),
      List.mem_filter.mpr ⟨lookupD_mem hlast, by simp [hstale]⟩, rfl⟩
  refine ⟨?_, ?_, ?_, ?_, ?_⟩
  · intro e he hhop
    exact ((mem_foldl_evict _ e s).mp he).2 n hnT hhop
  · exact foldl_evict_last_mem_none _ n s hnT
  · exact foldl_evict_neighbors _ s
  · intro e he hfresh
    refine (mem_foldl_evict _ e s).mpr ⟨he, ?_⟩
    intro n' hn' hhop
    exfalso
    rcases List.mem_map.mp hn' with ⟨p, hp, hp1⟩
    rcases List.mem_filter.mp hp with ⟨hpmem, hpstale⟩
    have hpl : lookupD s.last_update_received p.1 = some p.2 :=
      mem_lookupD_of_nodup hnd (by simpa using hpmem)
    rw [hp1, ← hhop] at hpl
    exact hfresh p.2 hpl (by simpa using hpstale)
  · exact foldl_evict_self_lookup _ s

/-- Witness for C5: neighbor `B` (last heard at 0, period 1) has been silent
until `now = 10`; its learned route to `C` is gone and its timestamp
forgotten. -/
theorem claim_c5_neighbor_timeout_witness :
    lookupD (check_neighbor_timeouts
      { router_ip := "A", period := 1, neighbors := [("B", 1)],
        routing_table := [("A", (0, "A")), ("C", (5, "B"))],
        last_update_received := [("B", 0)] } 10).last_update_received "B" = none :=
  (claim_c5_neighbor_timeout _ 10 "B" 0 (by decide) (by decide) (by norm_num)).2.1

/-! ### Trace handling -/

/-- Claim C6: a trace handler first appends the local address to `routers`;
if the local router is the destination it forwards a data message whose
source is the local address, whose destination is the trace's source and
whose payload is the JSON serialization of the amended trace; otherwise it
forwards the amended trace, unchanged in every other field. -/
theorem claim_c6_trace (s : RouterState) (m : RawMessage) :
    (m.destination = some s.router_ip →
      process_trace_message s m = forward_message s
        { type := some "data"
          source := some s.router_ip
          destination := m.source
          payload := some (traceJson
            { m with routers := some (m.routers.getD [] ++ [s.router_ip]) })
          routers := none
          distances := none }) ∧
    (m.destination ≠ some s.router_ip →
      process_trace_message s m = forward_message s
        { m with routers := some (m.routers.getD [] ++ [s.router_ip]) }) := by
  constructor
  · intro h
    simp [process_trace_message, h]
  · intro h
    simp [process_trace_message, h]

/-- Witness for C6: router `B` is the destination of a trace from `A`; it
sends a data reply to `A` carrying the amended trace, via its route to `A`. -/
theorem claim_c6_trace_witness :
    process_trace_message
      { router_ip := "B", period := 1, neighbors := [("A", 1)],
        routing_table := [("B", (0, "B")), ("A", (1, "A"))],
        last_update_received := [] }
      { type := some "trace", source := some "A", destination := some "B",
        payload := none, routers := some ["A"], distances := none } =
    forward_message
      { router_ip := "B", period := 1, neighbors := [("A", 1)],
        routing_table := [("B", (0, "B")), ("A", (1, "A"))],
        last_update_received := [] }
      { type := some "data", source := some "B", destination := some "A",
        payload := some (traceJson
          { type := some "trace", source := some "A", destination := some "B",
            payload := none, routers := some (["A"].append ["B"]),
            distances := none })
        routers := none, distances := none } :=
  (claim_c6_trace _ _).1 rfl

/-! ### Operator add -/

/-- Counterexample to C8 as stated: router `A` has the single route
`B ↦ (2, "C")`, so no route to `B` shorter than `w = 2` exists; yet after
`add B 2` the entry for `B` is still `(2, "C")`, not `(2, "B")` — the code
reinstalls only when the existing distance is strictly greater than the new
weight. -/
theorem claim_c8_counterexample :
    (∀ r ∈ ({ router_ip := "A", period := 1, neighbors := [], routing_table := [("A", (0, "A")), ("B", (2, "C"))], last_update_received := [] } : RouterState).routing_table,
      r.1 = "B" → ¬ r.2.1 < 2) ∧
    (0 : Int) < 2 ∧
    lookupD (add_link
      { router_ip := "A", period := 1, neighbors := [],
        routing_table := [("A", (0, "A")), ("B", (2, "C"))],
        last_update_received := [] } "B" 2).routing_table "B" ≠
      some (2, "B") := by
  refine ⟨by decide, by decide, by decide⟩

/-- Claim C8 (amended): after `add ip w` with `0 < w` the neighbor set maps
`ip` to `w` (other neighbors unchanged); the table entry for `ip` becomes
`(w, ip)` exactly when no route to `ip` exists or the installed distance is
strictly greater than `w`, and is unchanged otherwise; entries for all other
destinations are unchanged. -/
theorem claim_c8_add_amended (s : RouterState) (ip : String) (w : Int) (_hw : 0 < w) :
    lookupD (add_link s ip w).neighbors ip = some w ∧
    (∀ k, k ≠ ip → lookupD (add_link s ip w).neighbors k = lookupD s.neighbors k) ∧
    (lookupD s.routing_table ip = none →
      lookupD (add_link s ip w).routing_table ip = some (w, ip)) ∧
    (∀ d h, lookupD s.routing_table ip = some (d, h) → w < d →
      lookupD (add_link s ip w).routing_table ip = some (w, ip)) ∧
    (∀ d h, lookupD s.routing_table ip = some (d, h) → ¬ w < d →
      lookupD (add_link s ip w).routing_table ip = some (d, h)) ∧
    (∀ k, k ≠ ip → lookupD (add_link s ip w).routing_table k = lookupD s.routing_table k) := by
  refine ⟨?_, ?_, ?_, ?_, ?_, ?_⟩
  · exact lookupD_insertD_self _ _ _
  · intro k hk
    exact lookupD_insertD_ne _ _ _ _ hk
  · intro hnone
    simp [add_link, hnone, lookupD_insertD_self]
  · intro d h hl hlt
    simp [add_link, hl, hlt, lookupD_insertD_self]
  · intro d h hl hlt
    simp [add_link, hl, hlt]
  · intro k hk
    cases hl : lookupD s.routing_table ip with
    | none => simp [add_link, hl, lookupD_insertD_ne _ _ _ _ hk]
    | some r =>
      by_cases hlt : w < r.1
      · simp [add_link, hl, hlt, lookupD_insertD_ne _ _ _ _ hk]
      · simp [add_link, hl, hlt]

/-- Witness for the amended C8 at the counterexample state: the neighbor
weight is upserted and the equal-distance entry via `C` survives. -/
theorem claim_c8_add_amended_witness :
    lookupD (add_link
      { router_ip := "A", period := 1, neighbors := [],
        routing_table := [("A", (0, "A")), ("B", (2, "C"))],
        last_update_received := [] } "B" 2).neighbors "B" = some 2 :=
  (claim_c8_add_amended _ "B" 2 (by decide)).1

/-- Claim C10: re-running `add ip w` for an existing neighbor replaces only
the stored link weight; entries for other destinations (in particular every
route through `ip`) are untouched, the entry for `ip` keeps its distance
unless `w` is strictly smaller, and no installed distance ever increases. -/
theorem claim_c10_add_frame (s : RouterState) (ip : String) (w w0 : Int)
    (hn : lookupD s.neighbors ip = some w0) :
    lookupD (add_link s ip w).neighbors ip = some w ∧
    (∀ k, k ≠ ip → lookupD (add_link s ip w).neighbors k = lookupD s.neighbors k) ∧
    (add_link s ip w).last_update_received = s.last_update_received ∧
    (add_link s ip w).router_ip = s.router_ip ∧
    (∀ k, k ≠ ip → lookupD (add_link s ip w).routing_table k = lookupD s.routing_table k) ∧
    (∀ d h, lookupD s.routing_table ip = some (d, h) → ¬ w < d →
      lookupD (add_link s ip w).routing_table ip = some (d, h)) ∧
    (∀ d h, lookupD s.routing_table ip = some (d, h) → w < d →
      lookupD (add_link s ip w).routing_table ip = some (w, ip)) ∧
    (∀ dest d h, lookupD s.routing_table dest = some (d, h) →
      ∃ d' h', lookupD (add_link s ip w).routing_table dest = some (d', h') ∧ d' ≤ d) := by
  refine ⟨lookupD_insertD_self _ _ _, fun k hk => lookupD_insertD_ne _ _ _ _ hk,
    rfl, rfl, ?_, ?_, ?_, ?_⟩
  · intro k hk
    cases hl : lookupD s.routing_table ip with
    | none => simp [add_link, hl, lookupD_insertD_ne _ _ _ _ hk]
    | some r =>
      by_cases hlt : w < r.1
      · simp [add_link, hl, hlt, lookupD_insertD_ne _ _ _ _ hk]
      · simp [add_link, hl, hlt]
  · intro d h hl hlt
    simp [add_link, hl, hlt]
  · intro d h hl hlt
    simp [add_link, hl, hlt, lookupD_insertD_self]
  · intro dest d h hl
    by_cases hdip : dest = ip
    · subst hdip
      by_cases hlt : w < d
      · exact ⟨w, dest, by simp [add_link, hl, hlt, lookupD_insertD_self], le_of_lt hlt⟩
      · exact ⟨d, h, by simp [add_link, hl, hlt], le_refl d⟩
    · refine ⟨d, h, ?_, le_refl d⟩
      cases hli : lookupD s.routing_table ip with
      | none => simp [add_link, hli, lookupD_insertD_ne _ _ _ _ hdip, hl]
      | some r =>
        by_cases hlt : w < r.1
        · simp [add_link, hli, hlt, lookupD_insertD_ne _ _ _ _ hdip, hl]
        · simp [add_link, hli, hlt, hl]

/-- Witness for C10: re-adding neighbor `B` with a raised weight 9 keeps the
installed route to `B` at distance 2. -/
theorem claim_c10_add_frame_witness :
    lookupD (add_link
      { router_ip := "A", period := 1, neighbors := [("B", 1)],
        routing_table := [("A", (0, "A")), ("B", (2, "B"))],
        last_update_received := [] } "B" 9).routing_table "B" = some (2, "B") :=
  (claim_c10_add_frame _ "B" 9 1 (by decide)).2.2.2.2.2.1 2 "B" (by decide) (by decide)

/-! ### Missing-field handling -/

/-- Counterexample to C9 as stated, one failure per missing required field
the code does not actually validate: (1) an update from current neighbor `B`
lacking `distances` is not dropped — `message.get('distances', {})` defaults
to an empty mapping and the handler still records `B`'s last-heard
timestamp, so the last-heard map changes; (2) a data message to the local
router lacking `payload` is not dropped — `message.get('payload', '')`
defaults and the empty payload is printed, so operator output is produced;
(3) a trace to the local router lacking `routers` is not dropped —
`message.get('routers', [])` defaults, the trace is amended to
`routers = [self]` and the data reply is sent, so a datagram goes out. -/
theorem claim_c9_counterexample :
    (lookupD (process_message
      { router_ip := "A", period := 1, neighbors := [("B", 1)],
        routing_table := [("A", (0, "A"))], last_update_received := [] } 7
      { type := some "update", source := some "B", destination := some "A",
        payload := none, routers := none,
        distances := none }).state.last_update_received "B" = some 7 ∧
     lookupD ({ router_ip := "A", period := 1, neighbors := [("B", 1)], routing_table := [("A", (0, "A"))], last_update_received := [] } : RouterState).last_update_received "B" = none) ∧
    (process_message
      { router_ip := "A", period := 1, neighbors := [("B", 1)],
        routing_table := [("A", (0, "A"))], last_update_received := [] } 7
      { type := some "data", source := some "B", destination := some "A",
        payload := none, routers := none,
        distances := none }).printed = [""] ∧
    (process_message
      { router_ip := "A", period := 1, neighbors := [("B", 1)],
        routing_table := [("A", (0, "A")), ("B", (1, "B"))],
        last_update_received := [] } 7
      { type := some "trace", source := some "B", destination := some "A",
        payload := none, routers := none,
        distances := none }).sent ≠ [] := by
  refine ⟨⟨rfl, rfl⟩, rfl, by decide⟩

/-- Claim C9 (amended): datagrams with an unknown or missing `type`, updates
lacking `source`, and data or trace messages lacking `destination` leave the
state unchanged, print nothing and send nothing.  The other missing required
fields do not cause a drop: an update from a current neighbor lacking
`distances` is processed as an empty distance map — it refreshes that
neighbor's last-heard timestamp while leaving the routing table and neighbor
set unchanged and sending nothing; a data message lacking `payload` is still
delivered or forwarded — addressed to the local router it prints the empty
default payload, otherwise the datagram is forwarded; a trace lacking
`routers` is processed as an empty list — the router appends itself (the
list becomes `[self]`) and forwards the data reply to the trace's source
when it is the destination, or the amended trace otherwise. -/
theorem claim_c9_missing_fields_amended (s : RouterState) (now : ℚ) (m : RawMessage) :
    ((∀ t, m.type = some t → t ≠ "update" ∧ t ≠ "data" ∧ t ≠ "trace") →
      process_message s now m = { state := s, sent := [], printed := [] }) ∧
    (m.type = some "update" → m.source = none →
      process_message s now m = { state := s, sent := [], printed := [] }) ∧
    (m.type = some "update" → m.distances = none →
      ∀ src w, m.source = some src → lookupD s.neighbors src = some w →
        (process_message s now m).state.routing_table = s.routing_table ∧
        (process_message s now m).state.neighbors = s.neighbors ∧
        lookupD (process_message s now m).state.last_update_received src = some now ∧
        (process_message s now m).sent = [] ∧
        (process_message s now m).printed = []) ∧
    (m.type = some "data" → m.destination = none →
      process_message s now m = { state := s, sent := [], printed := [] }) ∧
    (m.type = some "trace" → m.destination = none →
      (process_message s now m).state = s ∧
      (process_message s now m).sent = [] ∧
      (process_message s now m).printed = []) ∧
    (m.type = some "data" → m.payload = none → m.destination = some s.router_ip →
      (process_message s now m).state = s ∧
      (process_message s now m).sent = [] ∧
      (process_message s now m).printed = [""]) ∧
    (m.type = some "data" → m.payload = none → m.destination ≠ some s.router_ip →
      (process_message s now m).state = s ∧
      (process_message s now m).sent = forward_message s m ∧
      (process_message s now m).printed = []) ∧
    (m.type = some "trace" → m.routers = none → m.destination = some s.router_ip →
      (process_message s now m).state = s ∧
      (process_message s now m).printed = [] ∧
      (process_message s now m).sent = forward_message s
        { type := some "data"
          source := some s.router_ip
          destination := m.source
          payload := some (traceJson { m with routers := some [s.router_ip] })
          routers := none
          distances := none }) ∧
    (m.type = some "trace" → m.routers = none → m.destination ≠ some s.router_ip →
      (process_message s now m).state = s ∧
      (process_message s now m).printed = [] ∧
      (process_message s now m).sent =
        forward_message s { m with routers := some [s.router_ip] }) := by
  refine ⟨?_, ?_, ?_, ?_, ?_, ?_, ?_, ?_, ?_⟩
  · intro hunk
    cases htype : m.type with
    | none => simp [process_message, htype]
    | some t =>
      obtain ⟨h1, h2, h3⟩ := hunk t htype
      simp [process_message, htype, h1, h2, h3]
  · intro htype hsrc
    simp [process_message, htype, process_update_drop_none s now m hsrc]
  · intro htype hdist src w hsrc hw
    have hupd : process_update_message s now m =
        ({ s with last_update_received := insertD s.last_update_received src now, routing_table := s.routing_table }, false) := by
      simp [process_update_message, hsrc, hw, hdist]
    simp [process_message, htype, hupd, lookupD_insertD_self]
  · intro htype hdest
    simp [process_message, htype, process_data_message, hdest, forward_message]
  · intro htype hdest
    simp [process_message, htype, process_trace_message, hdest, forward_message]
  · intro htype hpay hdest
    simp [process_message, htype, process_data_message, hdest, hpay]
  · intro htype hpay hdest
    simp [process_message, htype, process_data_message, hdest]
  · intro htype hrout hdest
    simp [process_message, htype, process_trace_message, hdest, hrout]
  · intro htype hrout hdest
    simp [process_message, htype, process_trace_message, hdest, hrout]

/-- Witness for the amended C9 (third clause) at the counterexample input:
the distances-less update from `B` refreshes `B`'s last-heard timestamp. -/
theorem claim_c9_missing_fields_amended_witness :
    lookupD (process_message
      { router_ip := "A", period := 1, neighbors := [("B", 1)],
        routing_table := [("A", (0, "A"))], last_update_received := [] } 7
      { type := some "update", source := some "B", destination := some "A",
        payload := none, routers := none,
        distances := none }).state.last_update_received "B" = some 7 :=
  ((claim_c9_missing_fields_amended _ 7 _).2.2.1 rfl rfl "B" 1 rfl (by decide)).2.2.1
